import Mathlib

set_option maxHeartbeats 1000000
set_option maxRecDepth 100000

/-!
Verification of the four chat scripts (gtmRagChat.py, spanishChat.py, taskChat.py,
therapyChat.py).  Python state is embedded as explicit state passing; the external
completion endpoint (ollama.chat) is a function parameter of type
List Message → Option String, where none models the call raising an exception.
-/

/- Shared data model: the message dictionaries built by create_message in all
four scripts ({'role': role, 'content': message}). -/

inductive Role where
  | system
  | user
  | assistant
deriving DecidableEq

structure Message where
  role : Role
  content : String
deriving DecidableEq

def create_message (message : String) (role : Role) : Message :=
  { role := role, content := message }

/-- The Python slice l[-n:] used for the history window: the last n elements
(all of them when the list is shorter). -/
def pyTail (n : Nat) (l : List Message) : List Message :=
  l.drop (l.length - n)

/-! ## Python string primitives

The scripts only ever apply them to ASCII text, where Char.toLower and
Char.isWhitespace agree with Python's str.lower and str.strip. -/

def startsWithChars : List Char → List Char → Bool
  | [], _ => true
  | _ :: _, [] => false
  | p :: ps, c :: cs => p == c && startsWithChars ps cs

/-- Python s.startswith(p). -/
def pyStartsWith (s p : String) : Bool :=
  startsWithChars p.toList s.toList

/-- Python s.endswith(p). -/
def pyEndsWith (s p : String) : Bool :=
  startsWithChars p.toList.reverse s.toList.reverse

/-- Python s.lower(). -/
def pyLower (s : String) : String :=
  ⟨s.toList.map Char.toLower⟩

/-- Python s.strip(). -/
def pyStrip (s : String) : String :=
  ⟨(((s.toList.dropWhile Char.isWhitespace).reverse.dropWhile
      Char.isWhitespace).reverse)⟩

/-- Python s[n:]. -/
def pyDrop (s : String) (n : Nat) : String :=
  ⟨s.toList.drop n⟩

/-- Python s[1:-1]. -/
def pyInner (s : String) : String :=
  ⟨(s.toList.drop 1).dropLast⟩

/-- Python s.split(sep) for a one-character separator. -/
def splitOnChar (sep : Char) : List Char → List (List Char)
  | [] => [[]]
  | c :: rest =>
    match splitOnChar sep rest with
    | [] => []
    | l :: ls => if c == sep then [] :: l :: ls else (c :: l) :: ls

def pySplit (s : String) (sep : Char) : List String :=
  (splitOnChar sep s.toList).map (fun l => ⟨l⟩)

/-- Python's substring test `needle in hay`. -/
def containsChars (needle : List Char) : List Char → Bool
  | [] => needle.isEmpty
  | c :: rest => startsWithChars needle (c :: rest) || containsChars needle rest

/-- ", ".join(l). -/
def commaSeparated : List String → String
  | [] => ""
  | [s] => s
  | s :: rest => s ++ ", " ++ commaSeparated rest

/-! ## Chunker -/

/-- Modelled from the spec: the Chunker of spec section 4.1.  The repository
delegates chunking to langchain's RecursiveCharacterTextSplitter
(src/gtmRagChat.py, split_documents), whose code is not part of this repository;
spec 4.1 describes a sliding window of `W` characters in which consecutive
chunks start `W - O` characters apart and the final chunk may be shorter.
The `W - O = 0` disjunct only guards termination; under the contract's
precondition O < W it is never true. -/
def chunkCore (W O : Nat) (t : List Char) : List (List Char) :=
  if _h : t.length ≤ W ∨ W - O = 0 then [t]
  else t.take W :: chunkCore W O (t.drop (W - O))
termination_by t.length
decreasing_by
  push_neg at _h
  rw [List.length_drop]
  omega

/-- Modelled from the spec: the Chunker contract fails with InvalidConfig
unless both parameters are positive and overlap < window. -/
def chunker (t : List Char) (W O : Nat) : Option (List (List Char)) :=
  if 0 < O ∧ O < W then some (chunkCore W O t) else none

/-- Removing the leading overlap of every chunk after the first and
concatenating, as in the spec's reconstruction property. -/
def dropOverlap (O : Nat) (cs : List (List Char)) : List Char :=
  (cs.map (fun c => c.drop O)).flatten

def joinChunks (O : Nat) : List (List Char) → List Char
  | [] => []
  | c :: cs => c ++ dropOverlap O cs

theorem dropOverlap_chunkCore (W O : Nat) (hOW : O < W) (t : List Char) :
    dropOverlap O (chunkCore W O t) = t.drop O := by
  induction t using chunkCore.induct W O with
  | case1 t h =>
    rw [chunkCore, dif_pos h]
    simp [dropOverlap]
  | case2 t h ih =>
    rw [chunkCore, dif_neg h]
    show (t.take W).drop O ++ dropOverlap O (chunkCore W O (t.drop (W - O))) = t.drop O
    rw [ih, List.drop_drop]
    have hW : W - O + O = W := by omega
    rw [hW]
    have h1 : (t.take W).drop O = (t.drop O).take (W - O) := by
      have := (List.take_drop O (W - O) t).symm
      rwa [(by omega : O + (W - O) = W)] at this
    have h2 : t.drop W = (t.drop O).drop (W - O) := by
      rw [List.drop_drop, (by omega : O + (W - O) = W)]
    rw [h1, h2, List.take_append_drop]

theorem joinChunks_chunkCore (W O : Nat) (hOW : O < W) (t : List Char) :
    joinChunks O (chunkCore W O t) = t := by
  rw [chunkCore]
  by_cases h : t.length ≤ W ∨ W - O = 0
  · rw [dif_pos h]
    show t ++ dropOverlap O [] = t
    simp [dropOverlap]
  · rw [dif_neg h]
    show t.take W ++ dropOverlap O (chunkCore W O (t.drop (W - O))) = t
    rw [dropOverlap_chunkCore W O hOW, List.drop_drop]
    rw [(by omega : W - O + O = W), List.take_append_drop]

theorem chunkCore_getElem (W O : Nat) (hOW : O < W) (t : List Char) :
    ∀ i c, (chunkCore W O t)[i]? = some c → c = (t.drop (i * (W - O))).take W := by
  induction t using chunkCore.induct W O with
  | case1 t h =>
    intro i c hc
    rw [chunkCore, dif_pos h] at hc
    match i with
    | 0 =>
      simp only [List.getElem?_cons_zero, Option.some.injEq] at hc
      subst hc
      rcases h with hlen | hd
      · simp [List.take_of_length_le hlen]
      · omega
    | i + 1 => simp at hc
  | case2 t h ih =>
    intro i c hc
    rw [chunkCore, dif_neg h] at hc
    match i with
    | 0 =>
      simp only [List.getElem?_cons_zero, Option.some.injEq] at hc
      subst hc
      simp
    | i + 1 =>
      simp only [List.getElem?_cons_succ] at hc
      have := ih i c hc
      rw [this, List.drop_drop, Nat.succ_mul, Nat.add_comm (i * (W - O)) (W - O)]

theorem chunkCore_length (W O : Nat) (hOW : O < W) (t : List Char) :
    W < t.length → (chunkCore W O t).length = (t.length - O - 1) / (W - O) + 1 := by
  induction t using chunkCore.induct W O with
  | case1 t h =>
    intro hL
    omega
  | case2 t h ih =>
    intro hL
    rw [chunkCore, dif_neg h]
    simp only [List.length_cons]
    by_cases h2 : (t.drop (W - O)).length ≤ W
    · rw [chunkCore, dif_pos (Or.inl h2)]
      rw [List.length_drop] at h2
      have hdiv : (t.length - O - 1) / (W - O) = 1 := by
        have he : t.length - O - 1 = (t.length - O - 1 - (W - O)) + (W - O) := by omega
        rw [he, Nat.add_div_right _ (by omega : 0 < W - O),
          Nat.div_eq_of_lt (by omega : t.length - O - 1 - (W - O) < W - O)]
      simp [hdiv]
    · push_neg at h2
      have hinner := ih (by rw [List.length_drop]; rw [List.length_drop] at h2; omega)
      rw [hinner, List.length_drop]
      have he : t.length - O - 1 = (t.length - (W - O) - O - 1) + (W - O) := by
        rw [List.length_drop] at h2
        omega
      rw [he, Nat.add_div_right _ (by omega : 0 < W - O)]

/-- C1: for 0 < O < W the spec-modelled Chunker accepts the configuration,
chunk i is the window of W characters starting at offset i*(W-O) (so
consecutive chunks start W-O characters apart), concatenating the chunks with
the overlaps removed reproduces the document exactly, the number of chunks is
ceil((L-O)/(W-O)) when L > W, and a document of length at most W yields exactly
one chunk equal to the whole document. -/
theorem chunker_reconstruction_count (t : List Char) (W O : Nat)
    (hO : 0 < O) (hOW : O < W) :
    chunker t W O = some (chunkCore W O t)
    ∧ (∀ i c, (chunkCore W O t)[i]? = some c → c = (t.drop (i * (W - O))).take W)
    ∧ joinChunks O (chunkCore W O t) = t
    ∧ (W < t.length →
        (chunkCore W O t).length = (t.length - O + (W - O) - 1) / (W - O))
    ∧ (t.length ≤ W → chunkCore W O t = [t]) := by
  refine ⟨?_, chunkCore_getElem W O hOW t, joinChunks_chunkCore W O hOW t, ?_, ?_⟩
  · rw [chunker, if_pos ⟨hO, hOW⟩]
  · intro hL
    rw [chunkCore_length W O hOW t hL]
    have he : t.length - O + (W - O) - 1 = (t.length - O - 1) + (W - O) := by omega
    rw [he, Nat.add_div_right _ (by omega : 0 < W - O)]
  · intro hL
    rw [chunkCore, dif_pos (Or.inl hL)]

/-- Witness for C1 at the document "abcdefghij" with window 4 and overlap 1. -/
theorem chunker_reconstruction_count_witness :
    chunker "abcdefghij".toList 4 1 = some (chunkCore 4 1 "abcdefghij".toList)
    ∧ (∀ i c, (chunkCore 4 1 "abcdefghij".toList)[i]? = some c →
        c = ("abcdefghij".toList.drop (i * (4 - 1))).take 4)
    ∧ joinChunks 1 (chunkCore 4 1 "abcdefghij".toList) = "abcdefghij".toList
    ∧ (4 < "abcdefghij".toList.length →
        (chunkCore 4 1 "abcdefghij".toList).length =
          ("abcdefghij".toList.length - 1 + (4 - 1) - 1) / (4 - 1))
    ∧ ("abcdefghij".toList.length ≤ 4 →
        chunkCore 4 1 "abcdefghij".toList = ["abcdefghij".toList]) :=
  chunker_reconstruction_count "abcdefghij".toList 4 1 (by decide) (by decide)

/-! ## GTM RAG chat (src/gtmRagChat.py) -/

/-- One result returned by vectordb.similarity_search: its page_content and
its 'source' metadata entry (a file path). -/
structure SearchHit where
  source : String
  page_content : String
deriving DecidableEq

/-- os.path.basename: the part of the path after the last '/'. -/
def basename (s : String) : String :=
  ⟨(s.toList.reverse.takeWhile (fun c => c != '/')).reverse⟩

/-- The loop of ChatSystem.search_documents: walk the results accumulating the
context text and the deduplicated source list. -/
def searchFold : List SearchHit → String → List String → String × List String
  | [], context, sources => (context, sources)
  | doc :: rest, context, sources =>
    let source := basename doc.source
    let sources1 := if source ∈ sources then sources else sources ++ [source]
    searchFold rest
      (context ++ "\nFrom " ++ source ++ ":\n" ++ doc.page_content ++ "\n") sources1

def search_documents (results : List SearchHit) : String × List String :=
  searchFold results "" []

/-- Spec formulation of the context block: per result, a header line naming the
source followed by the chunk text, concatenated in result order. -/
def contextOfResults : List SearchHit → String
  | [] => ""
  | doc :: rest =>
    ("\nFrom " ++ basename doc.source ++ ":\n" ++ doc.page_content ++ "\n")
      ++ contextOfResults rest

/-- Spec formulation of the source list: the unique source identifiers in
first-seen order. -/
def firstSeen : List String → List String
  | [] => []
  | s :: rest => s :: firstSeen (rest.filter (fun x => x ≠ s))
termination_by l => l.length
decreasing_by
  simp only [List.length_cons]
  have := List.length_filter_le (fun x => decide (x ≠ s)) rest
  omega

theorem searchFold_context (rs : List SearchHit) :
    ∀ c acc, (searchFold rs c acc).1 = c ++ contextOfResults rs := by
  induction rs with
  | nil => intro c acc; simp [searchFold, contextOfResults]
  | cons d rest ih =>
    intro c acc
    simp only [searchFold, contextOfResults]
    rw [ih]
    simp [String.append_assoc]

theorem filter_not_mem_append_singleton (l acc : List String) (s : String) :
    l.filter (fun x => x ∉ acc ++ [s]) =
      (l.filter (fun x => x ∉ acc)).filter (fun x => x ≠ s) := by
  rw [List.filter_filter]
  apply List.filter_congr
  intro x _
  by_cases h1 : x ∈ acc <;> by_cases h2 : x = s <;>
    simp [h1, h2, List.mem_append]

theorem searchFold_sources (rs : List SearchHit) :
    ∀ acc c, (searchFold rs c acc).2 =
      acc ++ firstSeen ((rs.map (fun d => basename d.source)).filter
        (fun x => x ∉ acc)) := by
  induction rs with
  | nil => intro acc c; simp [searchFold, firstSeen]
  | cons d rest ih =>
    intro acc c
    simp only [searchFold, List.map_cons]
    by_cases hmem : basename d.source ∈ acc
    · rw [if_pos hmem, ih, List.filter_cons_of_neg (by simpa using hmem)]
    · rw [if_neg hmem, ih, List.filter_cons_of_pos (by simpa using hmem),
        filter_not_mem_append_singleton]
      simp only [firstSeen]
      rw [List.append_assoc, List.singleton_append]

/-- C5: search_documents concatenates the chunk texts in result order, each
preceded by a header line naming its source, collects the unique source
basenames in first-seen order, and returns empty context and empty sources on
an empty result list. -/
theorem search_documents_context_sources (results : List SearchHit) :
    (search_documents results).1 = contextOfResults results
    ∧ (search_documents results).2 =
        firstSeen (results.map (fun d => basename d.source))
    ∧ search_documents [] = ("", []) := by
  refine ⟨?_, ?_, rfl⟩
  · rw [search_documents, searchFold_context]
    simp
  · rw [search_documents, searchFold_sources]
    simp only [List.nil_append]
    congr 1
    apply List.filter_eq_self.2
    intro x _
    simp

/-- Python repr of a list of strings, as interpolated by an f-string. -/
def pyStrListRepr (l : List String) : String :=
  "[" ++ commaSeparated (l.map (fun s => "\x27" ++ s ++ "\x27")) ++ "]"

/-- The fixed first system message of gtmRagChat's process_query. -/
def gtmSystemText : String :=
  "You are a helpful GTM (Go-to-Market) strategy assistant. Use the provided context to answer questions accurately. If you\x27re not sure about something, admit it rather than making things up. Keep responses concise and focused on GTM strategy. Always end your response with a list of sources used, formatted as \x27Sources: [file1.pdf, file2.pdf, ...]\x27"

structure GtmState where
  conversation_history : List Message
deriving DecidableEq

/-- The messages array assembled by gtmRagChat's process_query: two system
messages, the last five history messages, then the new user message. -/
def gtmMessages (s : GtmState) (query context : String) (sources : List String) :
    List Message :=
  [create_message gtmSystemText .system,
   create_message ("Here is the relevant context from the GTM documents:\n\n"
     ++ context ++ "\n\nRemember to cite these sources at the end of your response: "
     ++ pyStrListRepr sources) .system]
  ++ pyTail 5 s.conversation_history ++ [create_message query .user]

/-- gtmRagChat ChatSystem.process_query.  The similarity-search results and the
completion endpoint are external inputs; ollamaChat returning none models the
call raising, in which case control leaves process_query before any mutation
of conversation_history (the appends are after the call in the source). -/
def gtmProcessQuery (s : GtmState) (query : String) (results : List SearchHit)
    (ollamaChat : List Message → Option String) : GtmState × Option String :=
  if pyLower query = "quit" then (s, some "Goodbye!")
  else
    let cs := search_documents results
    let messages := gtmMessages s query cs.1 cs.2
    match ollamaChat messages with
    | none => (s, none)
    | some rc =>
      let response_content :=
        if !(pyEndsWith (pyStrip rc) "]")
        then rc ++ "\n\nSources: " ++ pyStrListRepr cs.2
        else rc
      ({ conversation_history := s.conversation_history ++
          [create_message query .user, create_message response_content .assistant] },
       some response_content)

/-- A sequence of successful submit/reply cycles: each step is a query, the
search results for it, and the reply the completion endpoint returned. -/
def runGtm : GtmState → List (String × List SearchHit × String) → GtmState
  | s, [] => s
  | s, (q, res, r) :: rest => runGtm (gtmProcessQuery s q res (fun _ => some r)).1 rest

/-! ## Spanish chat (src/spanishChat.py) -/

structure SpanishState where
  conversation_history : List Message
  past_chats_context : String
deriving DecidableEq

/-- The fixed first system message of spanishChat's process_query. -/
def spanishSystemText : String :=
  "You are a helpful Spanish (Mexican) tutor. In your responses, the first thing you do is translate the text from my message into Spanish.Then you add your conversational response - in both English and Spanish.So your responses should always contain (1) my message translated into Spanish, and then (2) your response, in both English and Spanish.Your response should be no more than 180 characters."

/-- The messages array assembled by spanishChat's process_query (the source is
missing a separator between the two create_message calls; per spec section 9
this is treated as a defect to fix, i.e. a two-element list). -/
def spanishMessages (s : SpanishState) (query : String) : List Message :=
  [create_message spanishSystemText .system,
   create_message ("Here are the most recent previous conversations for context:\n"
     ++ s.past_chats_context) .system]
  ++ pyTail 5 s.conversation_history ++ [create_message query .user]

/-- spanishChat ChatSystem.process_query.  save_current_chat (file output) is
modelled as succeeding. -/
def spanishProcessQuery (s : SpanishState) (query : String)
    (ollamaChat : List Message → Option String) : SpanishState × Option String :=
  if pyLower query = "cmd quit" then (s, some "Chat history saved. Goodbye!")
  else
    match ollamaChat (spanishMessages s query) with
    | none => (s, none)
    | some rc =>
      ({ s with conversation_history := s.conversation_history ++
          [create_message query .user, create_message rc .assistant] },
       some rc)

def runSpanish : SpanishState → List (String × String) → SpanishState
  | s, [] => s
  | s, (q, r) :: rest => runSpanish (spanishProcessQuery s q (fun _ => some r)).1 rest

/-! ## Task chat (src/taskChat.py) -/

/-- One task record of tasks.txt. -/
structure TaskRec where
  task_name : String
  project : String
  create_date : String
  due_date : String
  complete_date : Option String
  description : String
  relevant_links : List String
deriving DecidableEq

/-- The JSON shape of tasks.txt. -/
structure TasksData where
  open_tasks : List TaskRec
  completed_tasks : List TaskRec
deriving DecidableEq

/-- The task-chat session state.  tasks_data models get_tasks' cache: none
stands for the Python falsy cases (unparsable or empty tasks file); the
JSON/file layer itself is out of scope, save_tasks is modelled as succeeding. -/
structure TaskState where
  conversation_history : List Message
  tasks_data : Option TasksData
deriving DecidableEq

/-- ChatSystem.add_task: datetime.now().strftime("%Y-%m-%d") is the external
input `now`.  Returns none when the Python function returns False. -/
def add_task (td : Option TasksData) (task_name project description due_date : String)
    (relevant_links : List String) (now : String) : Option TasksData :=
  match td with
  | none => none
  | some d => some { d with open_tasks := d.open_tasks ++
      [{ task_name := task_name, project := project, create_date := now,
         due_date := due_date, complete_date := none, description := description,
         relevant_links := relevant_links }] }

/-- The loop of ChatSystem.complete_task over open_tasks: `found` is
task_to_complete (overwritten on every match, so the last match wins) and
`remaining` collects the non-matching tasks in order. -/
def completeScan (task_name : String) :
    List TaskRec → Option TaskRec → List TaskRec → Option TaskRec × List TaskRec
  | [], found, remaining => (found, remaining)
  | t :: rest, found, remaining =>
    if pyStrip t.task_name = pyStrip task_name
    then completeScan task_name rest (some t) remaining
    else completeScan task_name rest found (remaining ++ [t])

/-- ChatSystem.complete_task; none models returning False. -/
def complete_task (td : Option TasksData) (task_name : String) (now : String) :
    Option TasksData :=
  match td with
  | none => none
  | some d =>
    match completeScan task_name d.open_tasks none [] with
    | (some t, remaining) =>
      some { open_tasks := remaining,
             completed_tasks := d.completed_tasks ++ [{ t with complete_date := some now }] }
    | (none, _) => none

/-- The comparison of ChatSystem.delete_task:
task_name.strip().lower() on both sides. -/
def lowerTrimEq (a b : String) : Bool :=
  pyLower (pyStrip a) == pyLower (pyStrip b)

/-- ChatSystem.delete_task; none models returning False (in the source the
filtered lists are written back in place even then, but no element was removed
so the state is unchanged). -/
def delete_task (td : Option TasksData) (task_name : String) : Option TasksData :=
  match td with
  | none => none
  | some d =>
    let newOpen := d.open_tasks.filter (fun t => !(lowerTrimEq t.task_name task_name))
    let newCompleted :=
      d.completed_tasks.filter (fun t => !(lowerTrimEq t.task_name task_name))
    let task_found :=
      newOpen.length < d.open_tasks.length ∨ newCompleted.length < d.completed_tasks.length
    if task_found then some { open_tasks := newOpen, completed_tasks := newCompleted }
    else none

/-- Python s.strip(': '): remove any of the characters ':' and ' ' from both
ends. -/
def stripColonSpace (s : String) : String :=
  let isCS := fun c => c == ':' || c == ' '
  ⟨((s.toList.dropWhile isCS).reverse.dropWhile isCS).reverse⟩

/-- The exact query strings of the list-tasks branch. -/
def taskListCommands : List String :=
  ["what are my open tasks?", "what are all my open tasks?", "show tasks",
   "show all tasks", "list tasks", "list open tasks"]

/-- The open-task report built by the list-tasks branch. -/
def openTaskLines : List TaskRec → String
  | [] => ""
  | t :: rest =>
    "\n- " ++ t.task_name ++ " (Due: " ++ t.due_date ++ ")"
      ++ "\n  Project: " ++ t.project
      ++ "\n  Description: " ++ t.description
      ++ openTaskLines rest

/-- taskChat ChatSystem.process_query.  `now` is datetime.now() rendered as
%Y-%m-%d; ollamaChat returning none models the completion call raising, in
which case control leaves process_query before the history appends. -/
def taskProcessQuery (s : TaskState) (query : String) (now : String)
    (ollamaChat : List Message → Option String) : TaskState × Option String :=
  if pyStartsWith (pyLower query) "delete task:" then
    let task_name := pyStrip (pyDrop query "delete task:".length)
    match delete_task s.tasks_data task_name with
    | some d => ({ s with tasks_data := some d },
        some ("Task \x27" ++ task_name ++ "\x27 has been deleted from tasks file."))
    | none => (s, some ("Error: Could not find task \x27" ++ task_name ++ "\x27."))
  else if pyStartsWith (pyLower query) "add task:" then
    let parts := pySplit (pyDrop query 9) '|'
    if parts.length < 2 then
      (s, some "Error: Please provide at least Task Name and Project Name. Format: add task: Task Name | Project Name")
    else
      let task_name := pyStrip (parts.getD 0 "")
      let project := pyStrip (parts.getD 1 "")
      let description := if parts.length > 2 then pyStrip (parts.getD 2 "")
        else "No description provided"
      let due_date := if parts.length > 3 then pyStrip (parts.getD 3 "")
        else "No due date"
      let relevant_links := if parts.length > 4 then
          (pySplit (pyInner (pyStrip (parts.getD 4 ""))) ',').map pyStrip
        else []
      match add_task s.tasks_data task_name project description due_date
          relevant_links now with
      | some d => ({ s with tasks_data := some d },
          some ("Task \x27" ++ task_name ++ "\x27 added to project \x27" ++ project
            ++ "\x27 successfully!"))
      | none => (s, some "Error adding task: Failed to save to file")
  else if pyStartsWith (pyLower query) "complete task:" then
    let task_name := stripColonSpace (pyDrop query "complete task:".length)
    match complete_task s.tasks_data task_name now with
    | some d => ({ s with tasks_data := some d },
        some ("Task \x27" ++ task_name ++ "\x27 marked as complete!"))
    | none => (s, some ("Error: Could not find task \x27" ++ task_name ++ "\x27"))
  else if pyLower query ∈ taskListCommands then
    match s.tasks_data with
    | some d =>
      if d.open_tasks ≠ [] then (s, some ("Open Tasks:\n" ++ openTaskLines d.open_tasks))
      else (s, some "No open tasks found.")
    | none => (s, some "No open tasks found.")
  else
    let messages := [create_message "You are a helpful assistant." .system]
      ++ pyTail 5 s.conversation_history ++ [create_message query .user]
    match ollamaChat messages with
    | none => (s, none)
    | some rc =>
      ({ s with conversation_history := s.conversation_history ++
          [create_message query .user, create_message rc .assistant] },
       some rc)

/-- The messages array of taskChat's plain-chat branch. -/
def taskMessages (s : TaskState) (query : String) : List Message :=
  [create_message "You are a helpful assistant." .system]
    ++ pyTail 5 s.conversation_history ++ [create_message query .user]

/-- The session state after __init__ with a fresh memory directory:
tasks.txt initialised to empty open and completed lists. -/
def taskInit : TaskState :=
  { conversation_history := [], tasks_data := some { open_tasks := [], completed_tasks := [] } }

/-! ## Therapy chat (src/therapyChat.py) -/

def therapyMessage1 : String :=
  "You always maintain a keen awareness of the history of the conversation and the user\x27s responses. You strive to be as productive as possible - you do not waste time in building your understanding of the user, or in planning and executing your therapy."

def therapyMessage2 : String :=
  "You are an intelligent therapist who\x27s only goal is to improve the user\x27s emotional wellbeing using evidence-based therapeutic techniques. Your goal is to identify concerns, develop strategies for coping with them, and promote long-lasting personal growth. During our sessions, you will employ various techniques such as cognitive behavioral therapy (CBT), dialectical behavior therapy (DBT), solution-focused brief therapy (SFBT), psychodynamic therapy, and mindfulness-based interventions. you will adapt these methods according to your unique needs and circumstances, while continuously monitoring the effectiveness of each technique in real-time. It is essential for our progress that we maintain a structured approach towards our sessions. This means sticking to predefined agendas and being honest with one another."

/-- ChatSystem.init_system_messages: the list stored in self.system_messages. -/
def init_system_messages (past_chats_context : String) : List Message :=
  [create_message therapyMessage1 .system,
   create_message therapyMessage2 .system,
   create_message ("Here are the previous chat sessions for context:\n"
     ++ past_chats_context) .system]

/-- therapyChat session state.  system_messages is the mutable Python list
object cached in self.system_messages. -/
structure TherapyState where
  conversation_history : List Message
  system_messages : List Message
  past_chats_context : String
deriving DecidableEq

/-- The state right after ChatSystem.__init__ (empty history, system messages
initialised from the loaded past-chats context). -/
def therapyInit (past_chats_context : String) : TherapyState :=
  { conversation_history := [],
    system_messages := init_system_messages past_chats_context,
    past_chats_context := past_chats_context }

/-- The delete-task loop of therapyChat's process_query: keep the messages
whose content does not contain task_name, and record whether any was dropped. -/
def therapyDeleteScan (task_name : String) : List Message → List Message × Bool
  | [] => ([], false)
  | m :: rest =>
    let r := therapyDeleteScan task_name rest
    if containsChars task_name.toList m.content.toList then (r.1, true)
    else (m :: r.1, r.2)

/-- therapyChat ChatSystem.process_query.  In the chat branch the local
`messages` aliases the cached self.system_messages list (which is non-empty in
every reachable state, so the `or self.init_system_messages()` fallback never
runs), the user message is appended to conversation_history BEFORE the
completion call, and messages.extend mutates the shared cached list in place;
both effects therefore persist even when ollamaChat raises (none). -/
def therapyProcessQuery (s : TherapyState) (query : String)
    (ollamaChat : List Message → Option String) : TherapyState × Option String :=
  if pyStartsWith (pyLower query) "delete task:" then
    let task_name := pyStrip (pyDrop query "delete task:".length)
    let r := therapyDeleteScan task_name s.conversation_history
    if r.2 then
      ({ s with conversation_history := r.1 },
       some ("Task \x27" ++ task_name ++ "\x27 has been deleted."))
    else (s, some ("Task \x27" ++ task_name ++ "\x27 not found."))
  else if pyLower query = "cmd quit" then (s, some "Chat history saved. Goodbye!")
  else
    let history1 := s.conversation_history ++ [create_message query .user]
    let messages1 := s.system_messages ++ pyTail 25 history1
    match ollamaChat messages1 with
    | none =>
      ({ s with conversation_history := history1, system_messages := messages1 }, none)
    | some rc =>
      ({ s with conversation_history := history1 ++ [create_message rc .assistant],
                system_messages := messages1 },
       some rc)

/-! ## Transcript save/load (src/spanishChat.py save_current_chat) -/

/-- The role rendering of save_current_chat:
"User" if message['role'] == 'user' else "Assistant". -/
def transcriptRoleName (r : Role) : String :=
  if r = Role.user then "User" else "Assistant"

/-- One transcript line, f"{role}: {content}\n", as a character list. -/
def saveLine (m : Message) : List Char :=
  (transcriptRoleName m.role).toList ++ [':', ' '] ++ m.content.toList ++ ['\n']

/-- save_current_chat's file content: the concatenation of the per-message
lines ("".join(chat_content)). -/
def saveChat : List Message → List Char
  | [] => []
  | m :: rest => saveLine m ++ saveChat rest

/-- Modelled from the spec: the repository never parses a transcript back into
(role, content) pairs (load_past_chats only concatenates the raw files into a
context string), so the loader is modelled from the spec's format "one line
per message, <Role>: <content>".  A line must carry one of the two role names
the saver emits. -/
def userHeader : List Char := ['U', 's', 'e', 'r', ':', ' ']

def assistantHeader : List Char := ['A', 's', 's', 'i', 's', 't', 'a', 'n', 't', ':', ' ']

def parseLine (line : List Char) : Option (Role × List Char) :=
  if startsWithChars userHeader line then some (Role.user, line.drop 6)
  else if startsWithChars assistantHeader line then some (Role.assistant, line.drop 11)
  else none

/-- Modelled from the spec: walk the saved file accumulating the current line
(in reverse); every newline ends one "<Role>: <content>" line, which must
parse; trailing characters without a final newline are malformed. -/
def parseTranscriptGo : List Char → List Char → Option (List (Role × List Char))
  | acc, [] => if acc.isEmpty then some [] else none
  | acc, c :: cs =>
    if c = '\n' then
      match parseLine acc.reverse with
      | none => none
      | some p =>
        match parseTranscriptGo [] cs with
        | none => none
        | some ps => some (p :: ps)
    else parseTranscriptGo (c :: acc) cs

/-- Modelled from the spec: parse a whole transcript file back into the
ordered (role, content) list; the repository itself has no such loader. -/
def parseTranscript (cs : List Char) : Option (List (Role × List Char)) :=
  parseTranscriptGo [] cs

/-! ## Claim theorems about conversation-history handling -/

/-- Counterexample to C2: in the therapy variant the command
"delete task: milk", issued after one successful exchange, removes the user
message "buy milk" from the conversation history — the history is not
append-only. -/
theorem history_removed_by_therapy_delete :
    ¬ ∃ t, ((therapyProcessQuery
        (therapyProcessQuery (therapyInit "") "buy milk" (fun _ => some "ok")).1
        "delete task: milk" (fun _ => some "x")).1).conversation_history =
      ((therapyProcessQuery (therapyInit "") "buy milk"
        (fun _ => some "ok")).1).conversation_history ++ t := by
  have h1 : ((therapyProcessQuery (therapyInit "") "buy milk"
      (fun _ => some "ok")).1).conversation_history =
      [create_message "buy milk" Role.user, create_message "ok" Role.assistant] := by
    decide
  have h2 : ((therapyProcessQuery
      (therapyProcessQuery (therapyInit "") "buy milk" (fun _ => some "ok")).1
      "delete task: milk" (fun _ => some "x")).1).conversation_history =
      [create_message "ok" Role.assistant] := by
    decide
  rintro ⟨t, ht⟩
  rw [h1, h2] at ht
  have hlen := congrArg List.length ht
  simp only [List.length_append, List.length_cons, List.length_nil] at hlen
  omega

/-- C2 (amended): the conversation history is append-only under every
operation of the gtm, spanish and task variants, and under every operation of
the therapy variant except its delete-task command (which removes every
message containing the given text). -/
theorem history_append_only_except_therapy_delete :
    (∀ (s : GtmState) q res f, ∃ t,
      (gtmProcessQuery s q res f).1.conversation_history
        = s.conversation_history ++ t)
    ∧ (∀ (s : SpanishState) q f, ∃ t,
      (spanishProcessQuery s q f).1.conversation_history
        = s.conversation_history ++ t)
    ∧ (∀ (s : TaskState) q now f, ∃ t,
      (taskProcessQuery s q now f).1.conversation_history
        = s.conversation_history ++ t)
    ∧ (∀ (s : TherapyState) q f,
      pyStartsWith (pyLower q) "delete task:" = false → ∃ t,
      (therapyProcessQuery s q f).1.conversation_history
        = s.conversation_history ++ t) := by
  refine ⟨?_, ?_, ?_, ?_⟩
  · intro s q res f
    simp only [gtmProcessQuery]
    split
    · exact ⟨[], (List.append_nil _).symm⟩
    · split
      · exact ⟨[], (List.append_nil _).symm⟩
      · exact ⟨_, rfl⟩
  · intro s q f
    simp only [spanishProcessQuery]
    split
    · exact ⟨[], (List.append_nil _).symm⟩
    · split
      · exact ⟨[], (List.append_nil _).symm⟩
      · exact ⟨_, rfl⟩
  · intro s q now f
    simp only [taskProcessQuery]
    split
    · split <;> exact ⟨[], (List.append_nil _).symm⟩
    · split
      · split
        · exact ⟨[], (List.append_nil _).symm⟩
        · split <;> exact ⟨[], (List.append_nil _).symm⟩
      · split
        · split <;> exact ⟨[], (List.append_nil _).symm⟩
        · split
          · split
            · split <;> exact ⟨[], (List.append_nil _).symm⟩
            · exact ⟨[], (List.append_nil _).symm⟩
          · split
            · exact ⟨[], (List.append_nil _).symm⟩
            · exact ⟨_, rfl⟩
  · intro s q f hq
    simp only [therapyProcessQuery, hq, Bool.false_eq_true, if_false]
    split
    · exact ⟨[], (List.append_nil _).symm⟩
    · split
      · exact ⟨[create_message q Role.user], rfl⟩
      · rename_i rc heq
        exact ⟨[create_message q Role.user, create_message rc Role.assistant],
          by simp⟩

/-- Witness for the amended C2 at concrete inputs (the therapy conjunct's
hypothesis is discharged at the plain query "hello"). -/
theorem history_append_only_witness :
    (∃ t, (gtmProcessQuery { conversation_history := [] } "hi" []
      (fun _ => some "r")).1.conversation_history = [] ++ t)
    ∧ pyStartsWith (pyLower "hello") "delete task:" = false
    ∧ (∃ t, (therapyProcessQuery (therapyInit "") "hello"
      (fun _ => some "hi")).1.conversation_history
        = (therapyInit "").conversation_history ++ t) :=
  ⟨history_append_only_except_therapy_delete.1 { conversation_history := [] } "hi" []
      (fun _ => some "r"),
   by decide,
   history_append_only_except_therapy_delete.2.2.2 (therapyInit "") "hello"
      (fun _ => some "hi") (by decide)⟩

/-- Counterexample to C3: in the therapy variant a failing completion call
does NOT leave the conversation unchanged — the user message was already
appended before the call (and the returned value none shows the call failed). -/
theorem therapy_failure_mutates_history :
    (therapyProcessQuery (therapyInit "") "hello" (fun _ => none)).2 = none
    ∧ (therapyProcessQuery (therapyInit "") "hello" (fun _ => none)).1
        ≠ therapyInit "" := by
  have hh : (therapyProcessQuery (therapyInit "")
      "hello" (fun _ => none)).1.conversation_history
      = [create_message "hello" Role.user] := by decide
  refine ⟨by decide, ?_⟩
  intro h
  rw [h] at hh
  exact absurd hh (by decide)

/-- C3 (amended): when the completion call fails, the gtm, spanish and task
variants leave the session state unchanged; the therapy variant keeps the user
message it appended before the call (and the cache extension), but appends no
assistant message. -/
theorem completion_failure_state :
    (∀ (s : GtmState) q res f, (gtmProcessQuery s q res f).2 = none →
      (gtmProcessQuery s q res f).1 = s)
    ∧ (∀ (s : SpanishState) q f, (spanishProcessQuery s q f).2 = none →
      (spanishProcessQuery s q f).1 = s)
    ∧ (∀ (s : TaskState) q now f, (taskProcessQuery s q now f).2 = none →
      (taskProcessQuery s q now f).1 = s)
    ∧ (∀ (s : TherapyState) q f, (therapyProcessQuery s q f).2 = none →
      (therapyProcessQuery s q f).1 =
        { s with
          conversation_history := s.conversation_history ++ [create_message q Role.user],
          system_messages := s.system_messages ++
            pyTail 25 (s.conversation_history ++ [create_message q Role.user]) }) := by
  refine ⟨?_, ?_, ?_, ?_⟩
  · intro s q res f
    simp only [gtmProcessQuery]
    split
    · intro h; simp at h
    · split
      · intro h; rfl
      · intro h; simp at h
  · intro s q f
    simp only [spanishProcessQuery]
    split
    · intro h; simp at h
    · split
      · intro h; rfl
      · intro h; simp at h
  · intro s q now f
    simp only [taskProcessQuery]
    split
    · split <;> (intro h; simp at h)
    · split
      · split
        · intro h; simp at h
        · split <;> (intro h; simp at h)
      · split
        · split <;> (intro h; simp at h)
        · split
          · split
            · split <;> (intro h; simp at h)
            · intro h; simp at h
          · split
            · intro h; rfl
            · intro h; simp at h
  · intro s q f
    simp only [therapyProcessQuery]
    split
    · split <;> (intro h; simp at h)
    · split
      · intro h; simp at h
      · split
        · intro h; rfl
        · intro h; simp at h

/-- Witness for the amended C3: a failing completion call at concrete inputs,
for the gtm variant (state unchanged) and the therapy variant (user message
kept). -/
theorem completion_failure_state_witness :
    (gtmProcessQuery { conversation_history := [] } "hi" [] (fun _ => none)).1
      = { conversation_history := [] }
    ∧ (therapyProcessQuery (therapyInit "") "hello" (fun _ => none)).1 =
      { therapyInit "" with
        conversation_history := (therapyInit "").conversation_history
          ++ [create_message "hello" Role.user],
        system_messages := (therapyInit "").system_messages ++
          pyTail 25 ((therapyInit "").conversation_history
            ++ [create_message "hello" Role.user]) } :=
  ⟨completion_failure_state.1 { conversation_history := [] } "hi" [] (fun _ => none)
      (by decide),
   completion_failure_state.2.2.2 (therapyInit "") "hello" (fun _ => none) (by decide)⟩

/-- C4 (code bug): after the first query of a therapy session the cached
self.system_messages list is no longer the value computed at session start —
messages.extend mutated it in place through the alias, so the system messages
used for the next prompt are not the session-start value reused unchanged. -/
theorem therapy_system_messages_mutated :
    ((therapyProcessQuery (therapyInit "") "hello"
        (fun _ => some "r1")).1).system_messages
      = init_system_messages "" ++ [create_message "hello" Role.user]
    ∧ ((therapyProcessQuery (therapyInit "") "hello"
        (fun _ => some "r1")).1).system_messages
      ≠ init_system_messages "" := by
  have h1 : ((therapyProcessQuery (therapyInit "") "hello"
      (fun _ => some "r1")).1).system_messages
      = init_system_messages "" ++ [create_message "hello" Role.user] := by
    decide
  refine ⟨h1, ?_⟩
  rw [h1]
  intro h
  have hlen := congrArg List.length h
  simp only [List.length_append, init_system_messages, List.length_cons,
    List.length_nil] at hlen
  omega

theorem runGtm_history_length (steps : List (String × List SearchHit × String)) :
    ∀ s : GtmState, (∀ x ∈ steps, pyLower x.1 ≠ "quit") →
      (runGtm s steps).conversation_history.length
        = s.conversation_history.length + 2 * steps.length := by
  induction steps with
  | nil => intro s _; simp [runGtm]
  | cons x rest ih =>
    intro s hq
    obtain ⟨q, res, r⟩ := x
    have hq1 : ¬ pyLower q = "quit" := hq (q, res, r) (List.mem_cons_self _ _)
    show (runGtm (gtmProcessQuery s q res (fun _ => some r)).1 rest).conversation_history.length = _
    rw [ih _ (fun x hx => hq x (List.mem_cons_of_mem _ hx))]
    simp only [gtmProcessQuery, if_neg hq1]
    simp [List.length_append, Nat.mul_add, Nat.mul_succ]
    omega

/-- C7: after N successful submit/reply cycles the gtm history stores 2N
messages, and the window passed to the next prompt is exactly the suffix of
the most recent min(5, 2N) messages in their original order (all of them when
2N < 5); the task and spanish variants assemble their prompts from the same
five-message window of their history. -/
theorem history_window_five (steps : List (String × List SearchHit × String))
    (hq : ∀ x ∈ steps, pyLower x.1 ≠ "quit") :
    ((runGtm { conversation_history := [] } steps).conversation_history).length
      = 2 * steps.length
    ∧ (∃ p, (runGtm { conversation_history := [] } steps).conversation_history
        = p ++ pyTail 5 (runGtm { conversation_history := [] } steps).conversation_history)
    ∧ (pyTail 5 (runGtm { conversation_history := [] } steps).conversation_history).length
        = min 5 (2 * steps.length)
    ∧ (2 * steps.length < 5 →
        pyTail 5 (runGtm { conversation_history := [] } steps).conversation_history
          = (runGtm { conversation_history := [] } steps).conversation_history)
    ∧ (∀ (s : GtmState) q context sources, ∃ sys,
        gtmMessages s q context sources
          = sys ++ pyTail 5 s.conversation_history ++ [create_message q Role.user])
    ∧ (∀ (s : TaskState) q, ∃ sys,
        taskMessages s q
          = sys ++ pyTail 5 s.conversation_history ++ [create_message q Role.user])
    ∧ (∀ (s : SpanishState) q, ∃ sys,
        spanishMessages s q
          = sys ++ pyTail 5 s.conversation_history ++ [create_message q Role.user]) := by
  have hlen := runGtm_history_length steps { conversation_history := [] } hq
  simp only [List.length_nil, Nat.zero_add] at hlen
  refine ⟨hlen, ⟨_, (List.take_append_drop _ _).symm⟩, ?_, ?_, ?_, ?_, ?_⟩
  · rw [pyTail, List.length_drop, hlen]
    omega
  · intro hlt
    rw [pyTail, hlen]
    rw [Nat.sub_eq_zero_of_le (by omega)]
    exact List.drop_zero _
  · intro s q context sources
    exact ⟨_, rfl⟩
  · intro s q
    exact ⟨_, rfl⟩
  · intro s q
    exact ⟨_, rfl⟩

/-- Witness for C7: three successful cycles (2N = 6 stored messages, window of
length 5). -/
theorem history_window_five_witness :
    (∀ x ∈ [("a", ([] : List SearchHit), "ra"), ("b", [], "rb"), ("c", [], "rc")],
      pyLower x.1 ≠ "quit")
    ∧ ((runGtm { conversation_history := [] }
        [("a", [], "ra"), ("b", [], "rb"), ("c", [], "rc")]).conversation_history).length
      = 2 * [("a", ([] : List SearchHit), "ra"), ("b", [], "rb"), ("c", [], "rc")].length :=
  ⟨by decide,
   (history_window_five [("a", [], "ra"), ("b", [], "rb"), ("c", [], "rc")]
      (by decide)).1⟩

/-! ## Claim theorems about the task store -/

/-- C8: from a fresh task store, "add task: Write report | Acme | Quarterly
report | 2025-03-01" followed by "complete task: Write report" moves the task
record from open_tasks to completed_tasks with complete_date set to the
current date (the date of the completing call), leaving it in no other list;
d1 and d2 are the respective values of datetime.now(). -/
theorem add_then_complete_moves_task (d1 d2 : String)
    (f g : List Message → Option String) :
    (taskProcessQuery taskInit
        "add task: Write report | Acme | Quarterly report | 2025-03-01" d1 f).1.tasks_data
      = some ⟨[⟨"Write report", "Acme", d1, "2025-03-01", none, "Quarterly report", []⟩], []⟩
    ∧ (taskProcessQuery (taskProcessQuery taskInit
        "add task: Write report | Acme | Quarterly report | 2025-03-01" d1 f).1
        "complete task: Write report" d2 g).1.tasks_data
      = some ⟨[],
          [⟨"Write report", "Acme", d1, "2025-03-01", some d2, "Quarterly report", []⟩]⟩ :=
  ⟨rfl, rfl⟩

theorem getLast?_cons_or {α : Type} (t : α) (l : List α) (x : Option α) :
    ((t :: l).getLast?).or x = (l.getLast?).or (some t) := by
  cases l with
  | nil => simp [Option.or]
  | cons b m =>
    rw [List.getLast?_cons_cons]
    have hne : (b :: m).getLast? ≠ none := by
      simp [List.getLast?_eq_none_iff]
    obtain ⟨v, hv⟩ := Option.ne_none_iff_exists'.1 hne
    rw [hv]
    simp [Option.or]

theorem completeScan_eq (name : String) (tasks : List TaskRec) :
    ∀ found remaining, completeScan name tasks found remaining =
      (((tasks.filter (fun t => pyStrip t.task_name = pyStrip name)).getLast?).or found,
       remaining ++ tasks.filter (fun t => ¬ pyStrip t.task_name = pyStrip name)) := by
  induction tasks with
  | nil => intro found remaining; simp [completeScan]
  | cons t rest ih =>
    intro found remaining
    simp only [completeScan]
    by_cases hm : pyStrip t.task_name = pyStrip name
    · rw [if_pos hm, ih]
      rw [List.filter_cons_of_pos (by simpa using hm),
        List.filter_cons_of_neg (by simpa using hm), getLast?_cons_or]
    · rw [if_neg hm, ih]
      rw [List.filter_cons_of_neg (by simpa using hm),
        List.filter_cons_of_pos (by simpa using hm)]
      simp

/-- C9: when several open tasks have the same whitespace-stripped name,
complete_task removes every one of them from open_tasks but appends only the
LAST matching record (with complete_date set) to completed_tasks; the other
matching records are in neither resulting list. -/
theorem complete_task_duplicate_names (d : TasksData) (name now : String)
    (hdup : 2 ≤ (d.open_tasks.filter
      (fun t => pyStrip t.task_name = pyStrip name)).length) :
    ∃ last,
      (d.open_tasks.filter (fun t => pyStrip t.task_name = pyStrip name)).getLast?
        = some last
      ∧ complete_task (some d) name now = some
        { open_tasks :=
            d.open_tasks.filter (fun t => ¬ pyStrip t.task_name = pyStrip name),
          completed_tasks :=
            d.completed_tasks ++ [{ last with complete_date := some now }] } := by
  have hne : d.open_tasks.filter (fun t => pyStrip t.task_name = pyStrip name) ≠ [] := by
    intro h
    rw [h] at hdup
    simp at hdup
  have hsome : (d.open_tasks.filter
      (fun t => pyStrip t.task_name = pyStrip name)).getLast? ≠ none :=
    fun h => hne (List.getLast?_eq_none_iff.1 h)
  obtain ⟨last, hlast⟩ := Option.ne_none_iff_exists'.1 hsome
  refine ⟨last, hlast, ?_⟩
  simp only [complete_task]
  rw [completeScan_eq, Option.or_none, hlast]
  simp

/-- Witness for C9: two open tasks both named "Report"; completing "Report"
keeps only the second one (with its completion date), discarding the first. -/
theorem complete_task_duplicate_names_witness :
    2 ≤ (((⟨[⟨"Report", "P1", "c1", "d1", none, "x", []⟩,
            ⟨"Report", "P2", "c2", "d2", none, "y", []⟩], []⟩ : TasksData)).open_tasks.filter
      (fun t => pyStrip t.task_name = pyStrip "Report")).length
    ∧ ∃ last,
      (((⟨[⟨"Report", "P1", "c1", "d1", none, "x", []⟩,
          ⟨"Report", "P2", "c2", "d2", none, "y", []⟩], []⟩ : TasksData)).open_tasks.filter
        (fun t => pyStrip t.task_name = pyStrip "Report")).getLast? = some last
      ∧ complete_task (some ⟨[⟨"Report", "P1", "c1", "d1", none, "x", []⟩,
          ⟨"Report", "P2", "c2", "d2", none, "y", []⟩], []⟩) "Report" "2025-01-02" = some
        { open_tasks :=
            ((⟨[⟨"Report", "P1", "c1", "d1", none, "x", []⟩,
              ⟨"Report", "P2", "c2", "d2", none, "y", []⟩], []⟩ : TasksData)).open_tasks.filter
              (fun t => ¬ pyStrip t.task_name = pyStrip "Report"),
          completed_tasks := [] ++ [{ last with complete_date := some "2025-01-02" }] } :=
  ⟨by decide,
   complete_task_duplicate_names
     ⟨[⟨"Report", "P1", "c1", "d1", none, "x", []⟩,
       ⟨"Report", "P2", "c2", "d2", none, "y", []⟩], []⟩ "Report" "2025-01-02" (by decide)⟩

/-- C10: task-name matching is case-insensitive for deletion (strip + lower on
both sides, removing from both lists) but case-sensitive for completion
(strip only, exact match); in particular, with one open task named "Report",
delete_task "report" succeeds and removes it while complete_task "report"
fails and changes nothing. -/
theorem delete_case_insensitive_complete_sensitive :
    (∀ (d : TasksData) (name now : String),
      complete_task (some d) name now = none ↔
        d.open_tasks.filter (fun t => pyStrip t.task_name = pyStrip name) = [])
    ∧ (∀ (d : TasksData) (name : String),
      delete_task (some d) name = none ↔
        (∀ t ∈ d.open_tasks, lowerTrimEq t.task_name name = false)
        ∧ (∀ t ∈ d.completed_tasks, lowerTrimEq t.task_name name = false))
    ∧ delete_task
        (some ⟨[⟨"Report", "P", "c", "d", none, "x", []⟩], []⟩) "report"
        = some ⟨[], []⟩
    ∧ complete_task
        (some ⟨[⟨"Report", "P", "c", "d", none, "x", []⟩], []⟩) "report" "n"
        = none := by
  refine ⟨?_, ?_, by decide, by decide⟩
  · intro d name now
    simp only [complete_task]
    rw [completeScan_eq, Option.or_none]
    cases hl : (d.open_tasks.filter
        (fun t => pyStrip t.task_name = pyStrip name)).getLast? with
    | none =>
      simp only [List.getLast?_eq_none_iff] at hl
      simp [hl]
    | some v =>
      have hne : d.open_tasks.filter
          (fun t => pyStrip t.task_name = pyStrip name) ≠ [] := by
        intro h
        rw [h] at hl
        simp at hl
      simp [hne]
  · intro d name
    simp only [delete_task]
    constructor
    · intro h
      by_cases hf : (d.open_tasks.filter
            (fun t => !(lowerTrimEq t.task_name name))).length < d.open_tasks.length
          ∨ (d.completed_tasks.filter
            (fun t => !(lowerTrimEq t.task_name name))).length < d.completed_tasks.length
      · rw [if_pos hf] at h
        simp at h
      · push_neg at hf
        obtain ⟨h1, h2⟩ := hf
        have g1 : ∀ t ∈ d.open_tasks, lowerTrimEq t.task_name name = false := by
          intro t ht
          by_contra hc
          have hc2 : lowerTrimEq t.task_name name = true := by
            cases hb : lowerTrimEq t.task_name name
            · exact absurd hb hc
            · rfl
          have : (d.open_tasks.filter
              (fun t => !(lowerTrimEq t.task_name name))).length < d.open_tasks.length :=
            List.length_filter_lt_length_iff_exists.2 ⟨t, ht, by simp [hc2]⟩
          omega
        have g2 : ∀ t ∈ d.completed_tasks, lowerTrimEq t.task_name name = false := by
          intro t ht
          by_contra hc
          have hc2 : lowerTrimEq t.task_name name = true := by
            cases hb : lowerTrimEq t.task_name name
            · exact absurd hb hc
            · rfl
          have : (d.completed_tasks.filter
              (fun t => !(lowerTrimEq t.task_name name))).length
              < d.completed_tasks.length :=
            List.length_filter_lt_length_iff_exists.2 ⟨t, ht, by simp [hc2]⟩
          omega
        exact ⟨g1, g2⟩
    · rintro ⟨h1, h2⟩
      have f1 : d.open_tasks.filter (fun t => !(lowerTrimEq t.task_name name))
          = d.open_tasks :=
        List.filter_eq_self.2 (fun t ht => by simp [h1 t ht])
      have f2 : d.completed_tasks.filter (fun t => !(lowerTrimEq t.task_name name))
          = d.completed_tasks :=
        List.filter_eq_self.2 (fun t ht => by simp [h2 t ht])
      rw [if_neg]
      rw [f1, f2]
      simp

/-! ## Claim theorems about the transcript format -/

theorem startsWithChars_append (p l : List Char) :
    startsWithChars p (p ++ l) = true := by
  induction p with
  | nil => rfl
  | cons a ps ih => simp [startsWithChars, ih]

theorem parseLine_user (content : List Char) :
    parseLine (userHeader ++ content) = some (Role.user, content) := by
  rw [parseLine, if_pos (startsWithChars_append userHeader content)]
  rw [show (userHeader ++ content).drop 6 = content from by
    rw [show (6 : Nat) = userHeader.length from by decide, List.drop_left]]

theorem parseLine_assistant (content : List Char) :
    parseLine (assistantHeader ++ content) = some (Role.assistant, content) := by
  have hUA : startsWithChars userHeader (assistantHeader ++ content) = false := by
    show startsWithChars ('U' :: ['s', 'e', 'r', ':', ' '])
      ('A' :: (['s', 's', 'i', 's', 't', 'a', 'n', 't', ':', ' '] ++ content)) = false
    rw [startsWithChars, show (('U' : Char) == 'A') = false from by decide]
    rfl
  rw [parseLine, if_neg (by simp [hUA]),
    if_pos (startsWithChars_append assistantHeader content)]
  rw [show (assistantHeader ++ content).drop 11 = content from by
    rw [show (11 : Nat) = assistantHeader.length from by decide, List.drop_left]]

theorem parseGo_line (line rest : List Char) (hl : ∀ c ∈ line, c ≠ '\n') :
    ∀ acc, parseTranscriptGo acc (line ++ '\n' :: rest) =
      (parseLine (acc.reverse ++ line)).bind (fun p =>
        (parseTranscriptGo [] rest).map (fun ps => p :: ps)) := by
  induction line with
  | nil =>
    intro acc
    simp only [List.nil_append, List.append_nil]
    rw [parseTranscriptGo, if_pos rfl]
    cases parseLine acc.reverse with
    | none => rfl
    | some p =>
      cases parseTranscriptGo ([] : List Char) rest with
      | none => rfl
      | some ps => rfl
  | cons a l ih =>
    intro acc
    have ha : a ≠ '\n' := hl a (List.mem_cons_self a l)
    simp only [List.cons_append]
    rw [parseTranscriptGo, if_neg ha,
      ih (fun c hc => hl c (List.mem_cons_of_mem a hc)) (a :: acc)]
    simp

/-- C6 (amended): saving a conversation whose messages all have role user or
assistant and whose contents contain no newline character, then parsing the
transcript format back, reproduces the ordered (role, content) list exactly. -/
theorem transcript_roundtrip_amended :
    ∀ (h : List Message),
      (∀ m ∈ h, m.role ≠ Role.system ∧ ∀ c ∈ m.content.toList, c ≠ '\n') →
      parseTranscript (saveChat h)
        = some (h.map (fun m => (m.role, m.content.toList))) := by
  intro h
  induction h with
  | nil => intro _; rfl
  | cons m rest ih =>
    intro hm
    obtain ⟨hr, hc⟩ := hm m (List.mem_cons_self m rest)
    have ihr := ih (fun m' hm' => hm m' (List.mem_cons_of_mem m hm'))
    simp only [parseTranscript] at ihr ⊢
    obtain ⟨r, content⟩ := m
    have hrole : ∀ c ∈ (transcriptRoleName r).toList, c ≠ '\n' := by
      cases r <;> decide
    have hnl : ∀ c ∈ (transcriptRoleName r).toList ++ ([':', ' '] ++ content.toList),
        c ≠ '\n' := by
      intro c hcm
      rcases List.mem_append.1 hcm with h1 | h1
      · exact hrole c h1
      · rcases List.mem_append.1 h1 with h2 | h2
        · simp only [List.mem_cons, List.not_mem_nil, or_false] at h2
          rcases h2 with rfl | rfl <;> decide
        · exact hc c h2
    have hshape : saveChat (⟨r, content⟩ :: rest)
        = ((transcriptRoleName r).toList ++ ([':', ' '] ++ content.toList))
          ++ '\n' :: saveChat rest := by
      simp [saveChat, saveLine]
    rw [hshape, parseGo_line _ _ hnl []]
    simp only [List.reverse_nil, List.nil_append]
    cases r with
    | system => exact absurd rfl hr
    | user =>
      rw [show (transcriptRoleName Role.user).toList ++ ([':', ' '] ++ content.toList)
          = userHeader ++ content.toList from rfl]
      rw [parseLine_user, ihr]
      rfl
    | assistant =>
      rw [show (transcriptRoleName Role.assistant).toList ++ ([':', ' '] ++ content.toList)
          = assistantHeader ++ content.toList from rfl]
      rw [parseLine_assistant, ihr]
      rfl

/-- Witness for the amended C6 at a two-message conversation. -/
theorem transcript_roundtrip_witness :
    (∀ m ∈ [create_message "hola" Role.user, create_message "hi" Role.assistant],
      m.role ≠ Role.system ∧ ∀ c ∈ m.content.toList, c ≠ '\n')
    ∧ parseTranscript (saveChat
        [create_message "hola" Role.user, create_message "hi" Role.assistant])
      = some ([create_message "hola" Role.user, create_message "hi" Role.assistant].map
          (fun m => (m.role, m.content.toList))) :=
  ⟨by decide,
   transcript_roundtrip_amended
     [create_message "hola" Role.user, create_message "hi" Role.assistant] (by decide)⟩

/-- Counterexample to C6: a message whose content contains a newline does not
round-trip — the saved transcript splits it across two lines and the second
line has no role header, so parsing fails. -/
theorem transcript_newline_not_roundtrip :
    parseTranscript (saveChat [create_message "a\nb" Role.user])
      ≠ some [(Role.user, "a\nb".toList)] := by
  decide
